import Mathlib

/-!
Shallow embedding of the listing-ingestion core of the pistonheads_scraper
repository: the record flattener and progress store of `run_all.py`, the
`raw_source` sink of `db_helper.py`, and the pagination harvesters of
`scrapers/cazoo_scraper.py`, `scrapers/gumtree_scraper.py` and
`scrapers/pistonheads_scraper.py`.  Python dicts are modelled as association
lists, MySQL rows as a `Row` structure, timestamps as natural numbers
(hours), and every fallible step as an explicit sum/option value.
-/

namespace Scraper

/-- Python `s.split(c, 1)[0]`: the prefix of `s` before the first occurrence
of the character `c` (the whole string when `c` is absent). -/
def stripFromChar (c : Char) (s : String) : String :=
  String.mk (s.toList.takeWhile (fun d => d ≠ c))

/-- Occurrence test for `needle` inside a character list, as Python's
`needle in hay` substring test. -/
def listContainsSub (needle : List Char) : List Char → Bool
  | [] => needle.isEmpty
  | c :: cs => needle.isPrefixOf (c :: cs) || listContainsSub needle cs

/-- Python `needle in hay` on strings. -/
def strContains (needle hay : String) : Bool :=
  listContainsSub needle.toList hay.toList

/-- Python `s.startswith(pre)`. -/
def pyStartsWith (pre s : String) : Bool :=
  pre.toList.isPrefixOf s.toList

/-- Python `s.count(c)` for a single character. -/
def countChar (c : Char) (s : String) : Nat :=
  (s.toList.filter (fun d => d == c)).length

/-- Python `re.search(pat + r"\d", s)`-style test used by the Cazoo
harvester: some occurrence of `pat` in `s` is immediately followed by an
ASCII digit (`re.search(r"/cars-for-sale/\d+", href)`). -/
def hasSubThenDigit (pat : List Char) : List Char → Bool
  | [] => false
  | c :: cs =>
    (pat.isPrefixOf (c :: cs) &&
      (match (c :: cs).drop pat.length with
       | [] => false
       | d :: _ => d.isDigit)) || hasSubThenDigit pat cs

/-- Python `list(dict.fromkeys(xs))`, with an accumulator of already-seen
keys: order-preserving deduplication where the first occurrence wins. -/
def pyDedupAux (seen : List String) : List String → List String
  | [] => []
  | x :: xs => if x ∈ seen then pyDedupAux seen xs else x :: pyDedupAux (x :: seen) xs

/-- Python `list(dict.fromkeys(xs))`. -/
def pyDedup (xs : List String) : List String :=
  pyDedupAux [] xs

theorem mem_pyDedupAux (y : String) (xs : List String) :
    ∀ seen, y ∈ pyDedupAux seen xs ↔ y ∈ xs ∧ y ∉ seen := by
  induction xs with
  | nil => intro seen; simp [pyDedupAux]
  | cons x xs ih =>
    intro seen
    by_cases hx : x ∈ seen
    · simp only [pyDedupAux, if_pos hx, ih, List.mem_cons]
      by_cases hyx : y = x
      · subst hyx; tauto
      · tauto
    · simp only [pyDedupAux, if_neg hx, List.mem_cons, ih]
      by_cases hyx : y = x
      · subst hyx; tauto
      · tauto

theorem mem_pyDedup (y : String) (xs : List String) : y ∈ pyDedup xs ↔ y ∈ xs := by
  simp [pyDedup, mem_pyDedupAux]

theorem nodup_pyDedupAux (xs : List String) :
    ∀ seen, (pyDedupAux seen xs).Nodup := by
  induction xs with
  | nil => intro seen; simp [pyDedupAux]
  | cons x xs ih =>
    intro seen
    by_cases hx : x ∈ seen
    · simpa [pyDedupAux, if_pos hx] using ih seen
    · simp only [pyDedupAux, if_neg hx]
      refine List.nodup_cons.2 ⟨?_, ih (x :: seen)⟩
      intro hmem
      exact ((mem_pyDedupAux x xs (x :: seen)).1 hmem).2 (List.mem_cons_self x seen)

theorem nodup_pyDedup (xs : List String) : (pyDedup xs).Nodup :=
  nodup_pyDedupAux xs []

theorem sublist_pyDedupAux (xs : List String) :
    ∀ seen, List.Sublist (pyDedupAux seen xs) xs := by
  induction xs with
  | nil => intro seen; simp [pyDedupAux]
  | cons x xs ih =>
    intro seen
    by_cases hx : x ∈ seen
    · simpa [pyDedupAux, if_pos hx] using (ih seen).cons x
    · simpa [pyDedupAux, if_neg hx] using (ih (x :: seen)).cons₂ x

theorem sublist_pyDedup (xs : List String) : List.Sublist (pyDedup xs) xs :=
  sublist_pyDedupAux xs []

/-- Python `d.get(k)` on a dict modelled as an association list (keys are
unique in a Python dict; lookup returns the first binding). -/
def alist_lookup {β : Type} (k : String) : List (String × β) → Option β
  | [] => none
  | (k1, v) :: rest => if k = k1 then some v else alist_lookup k rest

theorem alist_lookup_eq_none {β : Type} (k : String) :
    ∀ l : List (String × β), k ∉ l.map Prod.fst → alist_lookup k l = none := by
  intro l
  induction l with
  | nil => intro _; rfl
  | cons p rest ih =>
    intro hk
    obtain ⟨k1, v⟩ := p
    simp only [List.map_cons, List.mem_cons] at hk
    push_neg at hk
    simp only [alist_lookup, if_neg hk.1]
    exact ih hk.2

-- ────────────────────────────────────────────────────────────
-- run_all.py: `flatten` (lines 57-81)
-- ────────────────────────────────────────────────────────────

/-- A scraped record as produced by the per-site extractors and consumed by
`run_all.flatten`: `{"listing_url": ..., "vehicle": {...}, "dealer": {...}}`.
`rec.get("listing_url")` may be absent (`none`); `rec.get("vehicle", {})`
and `rec.get("dealer", {})` are string-valued dicts. -/
structure ScrapedRecord where
  listing_url : Option String
  vehicle : List (String × String)
  dealer : List (String × String)

/-- The `flat` dict literal built by `flatten` before empty values are
removed: fifteen fixed keys, each mapped to `rec.get(...)` of the matching
input attribute (`None` when absent). -/
def flat_base (rec : ScrapedRecord) : List (String × Option String) :=
  [("listing_url", rec.listing_url),
   ("title", alist_lookup "title" rec.vehicle),
   ("make", alist_lookup "make" rec.vehicle),
   ("model", alist_lookup "model" rec.vehicle),
   ("variant", alist_lookup "variant" rec.vehicle),
   ("year", alist_lookup "year" rec.vehicle),
   ("price", alist_lookup "price" rec.vehicle),
   ("mileage", alist_lookup "mileage" rec.vehicle),
   ("fuel_type", alist_lookup "fuel_type" rec.vehicle),
   ("body_type", alist_lookup "body_type" rec.vehicle),
   ("gearbox", alist_lookup "gearbox" rec.vehicle),
   ("dealer_name", alist_lookup "name" rec.dealer),
   ("dealer_phone", alist_lookup "phone" rec.dealer),
   ("dealer_location", alist_lookup "location" rec.dealer),
   ("dealer_city", alist_lookup "city" rec.dealer)]

/-- Python `{k: v for k, v in flat.items() if v not in (None, "", {})}`.
The values of `flat` are `rec.get` results, i.e. `None` or strings, so the
`{}` member of the filter tuple can never match; the comprehension keeps
exactly the bindings whose value is a non-empty string. -/
def dropEmpty : List (String × Option String) → List (String × String)
  | [] => []
  | (_, none) :: rest => dropEmpty rest
  | (k, some s) :: rest => if s = "" then dropEmpty rest else (k, s) :: dropEmpty rest

/-- `run_all.flatten`: build the fixed-key flat mapping, then drop empty or
absent values. -/
def flatten (rec : ScrapedRecord) : List (String × String) :=
  dropEmpty (flat_base rec)

/-- The fixed column set of `flatten`'s output. -/
def allowed_keys : List String :=
  ["listing_url", "title", "make", "model", "variant", "year", "price",
   "mileage", "fuel_type", "body_type", "gearbox", "dealer_name",
   "dealer_phone", "dealer_location", "dealer_city"]

theorem mem_dropEmpty (k v : String) :
    ∀ l : List (String × Option String), (k, v) ∈ dropEmpty l ↔ (k, some v) ∈ l ∧ v ≠ "" := by
  intro l
  induction l with
  | nil => simp [dropEmpty]
  | cons p rest ih =>
    obtain ⟨k1, o⟩ := p
    match o with
    | none =>
      simp only [dropEmpty, ih, List.mem_cons]
      constructor
      · rintro ⟨hm, hv⟩
        exact ⟨Or.inr hm, hv⟩
      · rintro ⟨hm | hm, hv⟩
        · simp at hm
        · exact ⟨hm, hv⟩
    | some s =>
      by_cases hs : s = ""
      · subst hs
        have hd : dropEmpty ((k1, some "") :: rest) = dropEmpty rest := by
          simp [dropEmpty]
        rw [hd, ih]
        simp only [List.mem_cons]
        constructor
        · rintro ⟨hm, hv⟩
          exact ⟨Or.inr hm, hv⟩
        · rintro ⟨hm | hm, hv⟩
          · simp only [Prod.mk.injEq, Option.some.injEq] at hm
            exact absurd hm.2 hv
          · exact ⟨hm, hv⟩
      · have hd : dropEmpty ((k1, some s) :: rest) = (k1, s) :: dropEmpty rest := by
          simp [dropEmpty, hs]
        rw [hd]
        simp only [List.mem_cons, ih, Prod.mk.injEq, Option.some.injEq]
        constructor
        · rintro (⟨hk, hv⟩ | ⟨hm, hv⟩)
          · subst hk; subst hv; exact ⟨Or.inl ⟨rfl, rfl⟩, hs⟩
          · exact ⟨Or.inr hm, hv⟩
        · rintro ⟨⟨hk, hv⟩ | hm, hv2⟩
          · subst hk; subst hv; exact Or.inl ⟨rfl, rfl⟩
          · exact Or.inr ⟨hm, hv2⟩

theorem keys_dropEmpty_sub (l : List (String × Option String)) (p : String × String) :
    p ∈ dropEmpty l → p.1 ∈ l.map Prod.fst := by
  intro hp
  obtain ⟨k, v⟩ := p
  obtain ⟨hm, -⟩ := (mem_dropEmpty k v l).1 hp
  exact List.mem_map_of_mem Prod.fst hm

theorem alist_lookup_dropEmpty (k v : String) :
    ∀ l : List (String × Option String), (l.map Prod.fst).Nodup →
      (alist_lookup k (dropEmpty l) = some v ↔
        alist_lookup k l = some (some v) ∧ v ≠ "") := by
  intro l
  induction l with
  | nil => intro _; simp [dropEmpty, alist_lookup]
  | cons p rest ih =>
    intro hnd
    obtain ⟨k1, o⟩ := p
    simp only [List.map_cons, List.nodup_cons] at hnd
    have hdrop : k1 ∉ (dropEmpty rest).map Prod.fst := by
      intro hmem
      obtain ⟨q, hq, hq1⟩ := List.mem_map.1 hmem
      exact hnd.1 (hq1 ▸ keys_dropEmpty_sub rest q hq)
    by_cases hk : k = k1
    · subst hk
      match o with
      | none =>
        have hd : dropEmpty ((k, none) :: rest) = dropEmpty rest := rfl
        have hl : alist_lookup k ((k, (none : Option String)) :: rest) = some none := by
          simp [alist_lookup]
        rw [hd, hl, alist_lookup_eq_none k (dropEmpty rest) hdrop]
        simp
      | some s =>
        by_cases hs : s = ""
        · subst hs
          have hd : dropEmpty ((k, some "") :: rest) = dropEmpty rest := by
            simp [dropEmpty]
          have hl : alist_lookup k ((k, some "") :: rest) = some (some "") := by
            simp [alist_lookup]
          rw [hd, hl, alist_lookup_eq_none k (dropEmpty rest) hdrop]
          constructor
          · intro h; simp at h
          · rintro ⟨hv, hne⟩
            rw [Option.some.injEq, Option.some.injEq] at hv
            exact absurd hv.symm hne
        · have hd : dropEmpty ((k, some s) :: rest) = (k, s) :: dropEmpty rest := by
            simp [dropEmpty, hs]
          have hl : alist_lookup k ((k, some s) :: rest) = some (some s) := by
            simp [alist_lookup]
          have hl2 : alist_lookup k ((k, s) :: dropEmpty rest) = some s := by
            simp [alist_lookup]
          rw [hd, hl, hl2]
          constructor
          · intro h
            rw [Option.some.injEq] at h
            subst h
            exact ⟨rfl, hs⟩
          · rintro ⟨hv, -⟩
            rw [Option.some.injEq, Option.some.injEq] at hv
            rw [hv]
    · have hl : alist_lookup k ((k1, o) :: rest) = alist_lookup k rest := by
        simp [alist_lookup, hk]
      match o with
      | none =>
        have hd : dropEmpty ((k1, none) :: rest) = dropEmpty rest := rfl
        rw [hd, hl]
        exact ih hnd.2
      | some s =>
        by_cases hs : s = ""
        · have hd : dropEmpty ((k1, some s) :: rest) = dropEmpty rest := by
            simp [dropEmpty, hs]
          rw [hd, hl]
          exact ih hnd.2
        · have hd : dropEmpty ((k1, some s) :: rest) = (k1, s) :: dropEmpty rest := by
            simp [dropEmpty, hs]
          have hl2 : alist_lookup k ((k1, s) :: dropEmpty rest) =
              alist_lookup k (dropEmpty rest) := by
            simp [alist_lookup, hk]
          rw [hd, hl2, hl]
          exact ih hnd.2

/-- C9: `flatten` emits only the fixed listing_url / vehicle / dealer
columns, never with a `None`, empty-string or empty-dict value; a key is
present in the output exactly when the corresponding input attribute is a
non-empty string, so absent or empty attributes are omitted entirely. -/
theorem c9_flatten_no_placeholders (rec : ScrapedRecord) :
    (∀ p ∈ flatten rec, p.1 ∈ allowed_keys ∧ p.2 ≠ "") ∧
    (∀ k v, alist_lookup k (flatten rec) = some v ↔
      alist_lookup k (flat_base rec) = some (some v) ∧ v ≠ "") := by
  have hkeys : (flat_base rec).map Prod.fst = allowed_keys := rfl
  constructor
  · intro p hp
    obtain ⟨k, v⟩ := p
    obtain ⟨hm, hv⟩ := (mem_dropEmpty k v (flat_base rec)).1 hp
    exact ⟨hkeys ▸ List.mem_map_of_mem Prod.fst hm, hv⟩
  · intro k v
    exact alist_lookup_dropEmpty k v (flat_base rec) (hkeys ▸ (by decide))

/-- Witness for C9 at a concrete record: an input with
`vehicle = {"make": "Ford", "model": ""}` keeps `make` with its value and
drops the empty `model`. -/
theorem c9_flatten_no_placeholders_witness :
    ("make" ∈ allowed_keys ∧ "Ford" ≠ "") ∧
    alist_lookup "make" (flatten ⟨some "u", [("make", "Ford"), ("model", "")], []⟩) =
      some "Ford" :=
  ⟨(c9_flatten_no_placeholders ⟨some "u", [("make", "Ford"), ("model", "")], []⟩).1
      ("make", "Ford") (by decide),
   ((c9_flatten_no_placeholders ⟨some "u", [("make", "Ford"), ("model", "")], []⟩).2
      "make" "Ford").mpr (by decide)⟩

-- ────────────────────────────────────────────────────────────
-- run_all.py: progress store (lines 18-52)
-- ────────────────────────────────────────────────────────────

/-- One source's entry of `scraping_progress.json`. -/
structure SourceProgress where
  last_page : Nat
  total_pages_scraped : Nat
  total_listings : Nat
  last_run : Option Nat
deriving DecidableEq

/-- The whole progress file: one object per source. -/
structure Progress where
  pistonheads : SourceProgress
  aa : SourceProgress
  cazoo : SourceProgress
deriving DecidableEq

def default_source_progress : SourceProgress :=
  { last_page := 0, total_pages_scraped := 0, total_listings := 0, last_run := none }

/-- The default progress dict returned by `load_progress` when the file
cannot be used. -/
def default_progress : Progress :=
  ⟨default_source_progress, default_source_progress, default_source_progress⟩

/-- Outcome of attempting to read `scraping_progress.json`:
the file does not exist, `open`/read raises, `json.load` raises, or the
parse succeeds with progress content. -/
inductive FileRead where
  | missing
  | unreadable
  | invalidJson
  | parsed (p : Progress)
deriving DecidableEq

/-- `run_all.load_progress`: return the parsed file if the file exists and
both reading and `json.load` succeed (the bare `except: pass` swallows every
error), otherwise the default progress structure. -/
def load_progress : FileRead → Progress
  | FileRead.parsed p => p
  | _ => default_progress

/-- C10: `load_progress` never raises, and a missing, unreadable or invalid
progress file yields the default structure in which every source
(pistonheads, aa, cazoo) has last_page 0, total_pages_scraped 0,
total_listings 0 and last_run null. -/
theorem c10_load_progress_default (fr : FileRead)
    (h : fr = FileRead.missing ∨ fr = FileRead.unreadable ∨ fr = FileRead.invalidJson) :
    load_progress fr = default_progress ∧
    default_progress.pistonheads = ⟨0, 0, 0, none⟩ ∧
    default_progress.aa = ⟨0, 0, 0, none⟩ ∧
    default_progress.cazoo = ⟨0, 0, 0, none⟩ := by
  rcases h with rfl | rfl | rfl <;> exact ⟨rfl, rfl, rfl, rfl⟩

/-- Witness for C10 at the concrete input `FileRead.missing`. -/
theorem c10_load_progress_default_witness :
    load_progress FileRead.missing = default_progress ∧
    default_progress.pistonheads = ⟨0, 0, 0, none⟩ ∧
    default_progress.aa = ⟨0, 0, 0, none⟩ ∧
    default_progress.cazoo = ⟨0, 0, 0, none⟩ :=
  c10_load_progress_default FileRead.missing (Or.inl rfl)

-- ────────────────────────────────────────────────────────────
-- db_helper.py: the raw_source sink (lines 471-608)
-- ────────────────────────────────────────────────────────────

/-- A record passed to `save_to_raw_source`: a flat Python dict with string
values (the output of `run_all.flatten`). -/
abbrev Rec := List (String × String)

/-- Python `rec.get(k, d)`. -/
def recGetD (r : Rec) (k d : String) : String :=
  (alist_lookup k r).getD d

/-- One row of the MySQL `raw_source` table.  `raw_json` holds the stored
JSON document (`json.dumps(rec)` is injective on dicts, so the dict itself
stands for its serialization); timestamps are `DATETIME` values modelled as
naturals. -/
structure Row where
  id : Nat
  source : String
  listing_url : String
  raw_json : Rec
  created_at : Nat
  updated_at : Nat
deriving DecidableEq

/-- The table plus its AUTO_INCREMENT counter. -/
structure SinkState where
  table : List Row
  nextId : Nat
deriving DecidableEq

/-- The `UNIQUE KEY unique_listing (source, listing_url)` conflict test. -/
def rowMatchesKey (src url : String) (r : Row) : Bool :=
  r.source == src && r.listing_url == url

/-- One execution of
`INSERT INTO raw_source (source, listing_url, raw_json) VALUES (...)
 ON DUPLICATE KEY UPDATE raw_json = VALUES(raw_json), updated_at = NOW()`,
returning the new state and MySQL's affected-row count: 1 for a fresh
insert, 2 when an existing row is updated and changes, 0 when the update
leaves the conflicting row byte-identical.  `created_at` defaults to NOW()
on insert and is never touched on update. -/
def upsertOne (st : SinkState) (src url : String) (rj : Rec) (now : Nat) :
    SinkState × Nat :=
  match st.table.find? (rowMatchesKey src url) with
  | none =>
    ({ table := st.table ++ [⟨st.nextId, src, url, rj, now, now⟩],
       nextId := st.nextId + 1 }, 1)
  | some r =>
    if r.raw_json = rj ∧ r.updated_at = now then (st, 0)
    else
      ({ st with
         table := st.table.map fun q =>
           if rowMatchesKey src url q then
             { q with raw_json := rj, updated_at := now }
           else q }, 2)

/-- The per-call statistics counters of `save_to_raw_source`. -/
structure UpsertStats where
  inserted : Nat
  updated : Nat
  errors : Nat
deriving DecidableEq

/-- The `for i, rec in enumerate(records, 1)` loop of `save_to_raw_source`:
a record whose `rec.get('listing_url', '')` is empty is skipped and counted
as an error; otherwise the row is upserted and the affected-row count is
classified as inserted (1) or updated (2). -/
def saveLoop (source : String) (now : Nat) :
    SinkState → UpsertStats → List Rec → SinkState × UpsertStats
  | st, stats, [] => (st, stats)
  | st, stats, rec :: rest =>
    if recGetD rec "listing_url" "" = "" then
      saveLoop source now st
        { stats with errors := stats.errors + 1 } rest
    else
      let r := upsertOne st source (recGetD rec "listing_url" "") rec now
      let stats' :=
        if r.2 = 1 then { stats with inserted := stats.inserted + 1 }
        else if r.2 = 2 then { stats with updated := stats.updated + 1 }
        else stats
      saveLoop source now r.1 stats' rest

/-- `db_helper.save_to_raw_source`: run the batch loop from zeroed counters.
The periodic `cn.commit()` every 50 rows only affects durability
granularity, not the final table contents, and is not modelled. -/
def save_to_raw_source (st : SinkState) (records : List Rec) (source : String)
    (now : Nat) : SinkState × UpsertStats :=
  saveLoop source now st ⟨0, 0, 0⟩ records

/-- C2: the sink upsert is idempotent for a record with a non-empty
listing_url.  From an empty table, the first call inserts exactly one row
(statistics `inserted=1, updated=0`), and a second call with the same
record at a later time leaves the same single row — same id, same
`raw_json`, `created_at` untouched — refreshing only `updated_at`
(statistics `inserted=0, updated=1`). -/
theorem c2_upsert_idempotent (rec : Rec) (src : String) (t1 t2 : Nat)
    (hurl : recGetD rec "listing_url" "" ≠ "") (ht : t1 ≠ t2) :
    save_to_raw_source ⟨[], 0⟩ [rec] src t1 =
      (⟨[⟨0, src, recGetD rec "listing_url" "", rec, t1, t1⟩], 1⟩, ⟨1, 0, 0⟩) ∧
    save_to_raw_source ⟨[⟨0, src, recGetD rec "listing_url" "", rec, t1, t1⟩], 1⟩
        [rec] src t2 =
      (⟨[⟨0, src, recGetD rec "listing_url" "", rec, t1, t2⟩], 1⟩, ⟨0, 1, 0⟩) := by
  constructor
  · simp [save_to_raw_source, saveLoop, hurl, upsertOne]
  · simp only [save_to_raw_source, saveLoop, if_neg hurl, upsertOne]
    rw [List.find?_cons_of_pos _ (by simp [rowMatchesKey])]
    simp [ht, rowMatchesKey, saveLoop]

/-- Witness for C2 at the record `{"listing_url": "u1", "make": "BMW"}`,
source `"aa"`, times 0 and 1. -/
theorem c2_upsert_idempotent_witness :
    save_to_raw_source ⟨[], 0⟩ [[("listing_url", "u1"), ("make", "BMW")]] "aa" 0 =
      (⟨[⟨0, "aa", "u1", [("listing_url", "u1"), ("make", "BMW")], 0, 0⟩], 1⟩,
       ⟨1, 0, 0⟩) ∧
    save_to_raw_source
        ⟨[⟨0, "aa", "u1", [("listing_url", "u1"), ("make", "BMW")], 0, 0⟩], 1⟩
        [[("listing_url", "u1"), ("make", "BMW")]] "aa" 1 =
      (⟨[⟨0, "aa", "u1", [("listing_url", "u1"), ("make", "BMW")], 0, 1⟩], 1⟩,
       ⟨0, 1, 0⟩) := by
  have h := c2_upsert_idempotent [("listing_url", "u1"), ("make", "BMW")] "aa" 0 1
    (by decide) (by decide)
  simpa using h

/-- C3 counterexample: upserting `R1 = {"listing_url": "u", "make": "Ford"}`
and then the partial `R2 = {"listing_url": "u"}` leaves a single stored row
whose `raw_json` no longer binds `make` at all — the stored make is null,
not `"Ford"`, because `ON DUPLICATE KEY UPDATE raw_json = VALUES(raw_json)`
replaces the document wholesale. -/
theorem c3_partial_update_counterexample :
    (save_to_raw_source
        (save_to_raw_source ⟨[], 0⟩ [[("listing_url", "u"), ("make", "Ford")]] "aa" 0).1
        [[("listing_url", "u")]] "aa" 1).1.table.map
          (fun r => alist_lookup "make" r.raw_json) = [none] := by
  decide

/-- C3 amended: a later partial record replaces the stored `raw_json`
wholesale, so previously stored fields are erased rather than preserved:
after upserting `{"listing_url": u, "make": m}` and then `{"listing_url": u}`
the single stored row carries exactly the second record as its `raw_json`
(with `created_at` from the first call), and its make is absent. -/
theorem c3_amended_raw_json_replaced (u m : String) (hu : u ≠ "") (t1 t2 : Nat) :
    (save_to_raw_source
        (save_to_raw_source ⟨[], 0⟩ [[("listing_url", u), ("make", m)]] "aa" t1).1
        [[("listing_url", u)]] "aa" t2).1.table =
      [⟨0, "aa", u, [("listing_url", u)], t1, t2⟩] ∧
    alist_lookup "make" ([("listing_url", u)] : Rec) = none := by
  have hget1 : recGetD [("listing_url", u), ("make", m)] "listing_url" "" = u := by
    simp [recGetD, alist_lookup]
  have hget2 : recGetD [("listing_url", u)] "listing_url" "" = u := by
    simp [recGetD, alist_lookup]
  constructor
  · rw [show (save_to_raw_source ⟨[], 0⟩ [[("listing_url", u), ("make", m)]] "aa" t1).1 =
        ⟨[⟨0, "aa", u, [("listing_url", u), ("make", m)], t1, t1⟩], 1⟩ from by
      simp [save_to_raw_source, saveLoop, hget1, if_neg hu, upsertOne]]
    simp only [save_to_raw_source, saveLoop, hget2, if_neg hu, upsertOne]
    rw [List.find?_cons_of_pos _ (by simp [rowMatchesKey])]
    simp [rowMatchesKey, saveLoop]
  · simp [alist_lookup]

/-- Witness for the amended C3 at `u = "u"`, `m = "Ford"`, times 0 and 1. -/
theorem c3_amended_raw_json_replaced_witness :
    (save_to_raw_source
        (save_to_raw_source ⟨[], 0⟩ [[("listing_url", "u"), ("make", "Ford")]] "aa" 0).1
        [[("listing_url", "u")]] "aa" 1).1.table =
      [⟨0, "aa", "u", [("listing_url", "u")], 0, 1⟩] ∧
    alist_lookup "make" ([("listing_url", "u")] : Rec) = none :=
  c3_amended_raw_json_replaced "u" "Ford" (by decide) 0 1

/-- The record-validity test of the batch loop: `rec.get('listing_url', '')`
is non-empty (the loop skips the record when `not listing_url`). -/
def hasUrl (r : Rec) : Bool :=
  !(recGetD r "listing_url" "" == "")

theorem saveLoop_shift (source : String) (now : Nat) :
    ∀ (records : List Rec) (st : SinkState) (a b c : Nat),
      saveLoop source now st ⟨a, b, c⟩ records =
        ((saveLoop source now st ⟨0, 0, 0⟩ records).1,
         ⟨a + (saveLoop source now st ⟨0, 0, 0⟩ records).2.inserted,
          b + (saveLoop source now st ⟨0, 0, 0⟩ records).2.updated,
          c + (saveLoop source now st ⟨0, 0, 0⟩ records).2.errors⟩) := by
  intro records
  induction records with
  | nil => intro st a b c; simp [saveLoop]
  | cons rec rest ih =>
    intro st a b c
    by_cases hurl : recGetD rec "listing_url" "" = ""
    · rw [show saveLoop source now st ⟨a, b, c⟩ (rec :: rest) =
            saveLoop source now st ⟨a, b, c + 1⟩ rest from by simp [saveLoop, hurl],
          show saveLoop source now st ⟨0, 0, 0⟩ (rec :: rest) =
            saveLoop source now st ⟨0, 0, 1⟩ rest from by simp [saveLoop, hurl]]
      rw [ih st a b (c + 1), ih st 0 0 1]
      simp [Nat.add_assoc]
    · by_cases h1 : (upsertOne st source (recGetD rec "listing_url" "") rec now).2 = 1
      · rw [show saveLoop source now st ⟨a, b, c⟩ (rec :: rest) =
              saveLoop source now
                (upsertOne st source (recGetD rec "listing_url" "") rec now).1
                ⟨a + 1, b, c⟩ rest from by simp [saveLoop, hurl, h1],
            show saveLoop source now st ⟨0, 0, 0⟩ (rec :: rest) =
              saveLoop source now
                (upsertOne st source (recGetD rec "listing_url" "") rec now).1
                ⟨1, 0, 0⟩ rest from by simp [saveLoop, hurl, h1]]
        rw [ih _ (a + 1) b c, ih _ 1 0 0]
        simp [Nat.add_assoc]
      · by_cases h2 : (upsertOne st source (recGetD rec "listing_url" "") rec now).2 = 2
        · rw [show saveLoop source now st ⟨a, b, c⟩ (rec :: rest) =
                saveLoop source now
                  (upsertOne st source (recGetD rec "listing_url" "") rec now).1
                  ⟨a, b + 1, c⟩ rest from by simp [saveLoop, hurl, h1, h2],
              show saveLoop source now st ⟨0, 0, 0⟩ (rec :: rest) =
                saveLoop source now
                  (upsertOne st source (recGetD rec "listing_url" "") rec now).1
                  ⟨0, 1, 0⟩ rest from by simp [saveLoop, hurl, h1, h2]]
          rw [ih _ a (b + 1) c, ih _ 0 1 0]
          simp [Nat.add_assoc]
        · rw [show saveLoop source now st ⟨a, b, c⟩ (rec :: rest) =
                saveLoop source now
                  (upsertOne st source (recGetD rec "listing_url" "") rec now).1
                  ⟨a, b, c⟩ rest from by simp [saveLoop, hurl, h1, h2],
              show saveLoop source now st ⟨0, 0, 0⟩ (rec :: rest) =
                saveLoop source now
                  (upsertOne st source (recGetD rec "listing_url" "") rec now).1
                  ⟨0, 0, 0⟩ rest from by simp [saveLoop, hurl, h1, h2]]
          rw [ih _ a b c]

/-- C7: a record with an empty or absent listing_url is rejected before
reaching storage.  A batch behaves exactly like its sub-batch of records
with a non-empty listing_url — same final table state, same inserted and
updated counts — while the error counter equals the number of rejected
records, which are skipped without touching any row as the rest of the
batch continues. -/
theorem c7_empty_url_rejected (st : SinkState) (records : List Rec)
    (source : String) (now : Nat) :
    save_to_raw_source st records source now =
      ((save_to_raw_source st (records.filter hasUrl) source now).1,
       ⟨(save_to_raw_source st (records.filter hasUrl) source now).2.inserted,
        (save_to_raw_source st (records.filter hasUrl) source now).2.updated,
        (records.filter (fun r => !(hasUrl r))).length⟩) := by
  simp only [save_to_raw_source]
  induction records generalizing st with
  | nil => simp [saveLoop]
  | cons rec rest ih =>
    by_cases hurl : recGetD rec "listing_url" "" = ""
    · have hfil : (rec :: rest).filter hasUrl = rest.filter hasUrl := by
        simp [List.filter_cons, hasUrl, hurl]
      have hcnt : ((rec :: rest).filter (fun r => !(hasUrl r))).length =
          (rest.filter (fun r => !(hasUrl r))).length + 1 := by
        simp [List.filter_cons, hasUrl, hurl]
      rw [hfil, hcnt]
      rw [show saveLoop source now st ⟨0, 0, 0⟩ (rec :: rest) =
            saveLoop source now st ⟨0, 0, 1⟩ rest from by simp [saveLoop, hurl]]
      rw [saveLoop_shift source now rest st 0 0 1, ih st]
      simp [Nat.add_comm]
    · have hfil : (rec :: rest).filter hasUrl = rec :: rest.filter hasUrl := by
        simp [List.filter_cons, hasUrl, hurl]
      have hcnt : ((rec :: rest).filter (fun r => !(hasUrl r))).length =
          (rest.filter (fun r => !(hasUrl r))).length := by
        simp [List.filter_cons, hasUrl, hurl]
      rw [hfil, hcnt]
      by_cases h1 : (upsertOne st source (recGetD rec "listing_url" "") rec now).2 = 1
      · rw [show saveLoop source now st ⟨0, 0, 0⟩ (rec :: rest) =
              saveLoop source now
                (upsertOne st source (recGetD rec "listing_url" "") rec now).1
                ⟨1, 0, 0⟩ rest from by simp [saveLoop, hurl, h1],
            show saveLoop source now st ⟨0, 0, 0⟩ (rec :: rest.filter hasUrl) =
              saveLoop source now
                (upsertOne st source (recGetD rec "listing_url" "") rec now).1
                ⟨1, 0, 0⟩ (rest.filter hasUrl) from by simp [saveLoop, hurl, h1]]
        rw [saveLoop_shift source now rest _ 1 0 0,
            saveLoop_shift source now (rest.filter hasUrl) _ 1 0 0,
            ih _]
        simp
      · by_cases h2 : (upsertOne st source (recGetD rec "listing_url" "") rec now).2 = 2
        · rw [show saveLoop source now st ⟨0, 0, 0⟩ (rec :: rest) =
                saveLoop source now
                  (upsertOne st source (recGetD rec "listing_url" "") rec now).1
                  ⟨0, 1, 0⟩ rest from by simp [saveLoop, hurl, h1, h2],
              show saveLoop source now st ⟨0, 0, 0⟩ (rec :: rest.filter hasUrl) =
                saveLoop source now
                  (upsertOne st source (recGetD rec "listing_url" "") rec now).1
                  ⟨0, 1, 0⟩ (rest.filter hasUrl) from by simp [saveLoop, hurl, h1, h2]]
          rw [saveLoop_shift source now rest _ 0 1 0,
              saveLoop_shift source now (rest.filter hasUrl) _ 0 1 0,
              ih _]
          simp
        · rw [show saveLoop source now st ⟨0, 0, 0⟩ (rec :: rest) =
                saveLoop source now
                  (upsertOne st source (recGetD rec "listing_url" "") rec now).1
                  ⟨0, 0, 0⟩ rest from by simp [saveLoop, hurl, h1, h2],
              show saveLoop source now st ⟨0, 0, 0⟩ (rec :: rest.filter hasUrl) =
                saveLoop source now
                  (upsertOne st source (recGetD rec "listing_url" "") rec now).1
                  ⟨0, 0, 0⟩ (rest.filter hasUrl) from by simp [saveLoop, hurl, h1, h2]]
          exact ih _

-- ────────────────────────────────────────────────────────────
-- db_helper.py: get_stats_by_source (lines 610-653)
-- ────────────────────────────────────────────────────────────

/-- `SELECT source, COUNT(*) FROM ... WHERE ... GROUP BY source`, turned
into a dict by `dict(cur.fetchall())`: one pair per distinct source among
the given rows, carrying the number of rows with that source.  The
`WHERE source IS NOT NULL` clause is vacuous here because every row written
by `save_to_raw_source` carries the non-null source string argument. -/
def group_counts (rows : List Row) : List (String × Nat) :=
  (pyDedup (rows.map (fun r => r.source))).map
    (fun s => (s, (rows.filter (fun r => r.source == s)).length))

/-- The dict returned by `get_stats_by_source`. -/
structure SourceStats where
  total : Nat
  by_source : List (String × Nat)
  last_24h : List (String × Nat)
deriving DecidableEq

/-- `db_helper.get_stats_by_source`: total row count, per-source counts, and
per-source counts restricted to rows with
`created_at >= DATE_SUB(NOW(), INTERVAL 24 HOUR)`.  Timestamps are hours,
so the window condition is `now - 24 ≤ created_at` (with truncated natural
subtraction, which agrees with the datetime comparison since `created_at`
is never negative). -/
def get_stats_by_source (rows : List Row) (now : Nat) : SourceStats :=
  { total := rows.length,
    by_source := group_counts rows,
    last_24h := group_counts (rows.filter (fun r => decide (now - 24 ≤ r.created_at))) }

theorem alist_lookup_map_pair (f : String → Nat) :
    ∀ (l : List String) (s : String), s ∈ l →
      alist_lookup s (l.map (fun x => (x, f x))) = some (f s) := by
  intro l
  induction l with
  | nil => intro s hs; simp at hs
  | cons x xs ih =>
    intro s hs
    by_cases hsx : s = x
    · subst hsx; simp [alist_lookup]
    · have : s ∈ xs := by
        rcases List.mem_cons.1 hs with h | h
        · exact absurd h hsx
        · exact h
      simp only [List.map_cons, alist_lookup, if_neg hsx]
      exact ih s this

theorem lookup_group_counts (rows : List Row) (s : String) :
    (alist_lookup s (group_counts rows)).getD 0 =
      (rows.filter (fun r => r.source == s)).length := by
  by_cases hs : s ∈ rows.map (fun r => r.source)
  · have hmem : s ∈ pyDedup (rows.map fun r => r.source) :=
      (mem_pyDedup s _).2 hs
    rw [group_counts, alist_lookup_map_pair _ _ s hmem]
    rfl
  · have hmem : s ∉ pyDedup (rows.map fun r => r.source) :=
      fun h => hs ((mem_pyDedup s _).1 h)
    have hkeys : s ∉ ((pyDedup (rows.map fun r => r.source)).map
        (fun x => (x, (rows.filter (fun r => r.source == s)).length))).map Prod.fst := by
      simpa using hmem
    rw [group_counts, alist_lookup_eq_none s _ (by simpa using hmem)]
    have hfil : rows.filter (fun r => r.source == s) = [] := by
      rw [List.filter_eq_nil_iff]
      intro r hr hbeq
      exact hs (List.mem_map.2 ⟨r, hr, by simpa using hbeq⟩)
    rw [hfil]
    rfl

/-- C8: the statistics are computed by aggregation over the stored table.
The total is the row count, the per-source count for any source `s` is the
number of rows with that source (0, i.e. no entry, when there are none),
and the last_24h count for `s` is exactly the number of rows with source
`s` whose `created_at` lies within the trailing 24-hour window — in
particular 0 when no such row exists. -/
theorem c8_stats_last24h (rows : List Row) (now : Nat) (s : String) :
    (get_stats_by_source rows now).total = rows.length ∧
    (alist_lookup s (get_stats_by_source rows now).by_source).getD 0 =
      (rows.filter (fun r => r.source == s)).length ∧
    (alist_lookup s (get_stats_by_source rows now).last_24h).getD 0 =
      (rows.filter (fun r => r.source == s && decide (now - 24 ≤ r.created_at))).length := by
  refine ⟨rfl, lookup_group_counts rows s, ?_⟩
  show (alist_lookup s
      (group_counts (rows.filter (fun r => decide (now - 24 ≤ r.created_at))))).getD 0 = _
  rw [lookup_group_counts, List.filter_filter]

-- ────────────────────────────────────────────────────────────
-- scrapers: URL canonicalization and per-page link extraction
-- (cazoo_scraper.py lines 106-123, gumtree_scraper.py lines 106-150,
--  pistonheads_scraper.py lines 334-340)
-- ────────────────────────────────────────────────────────────

/-- Cazoo's URL cleanup:
`full_url = href if href.startswith("http") else "https://www.cazoo.co.uk" + href`
then `full_url.split("?", 1)[0].split("#", 1)[0]` — both the query string
and the fragment are stripped. -/
def cazooClean (href : String) : String :=
  let full_url :=
    if pyStartsWith "http" href then href else "https://www.cazoo.co.uk" ++ href
  stripFromChar '#' (stripFromChar '?' full_url)

/-- PistonHeads' URL cleanup (`extract_listings_and_next_page`):
`full_url = href if href.startswith('http') else "https://www.pistonheads.com" + href`
then `full_url.split('?')[0]` — only the query string is stripped; a
fragment survives. -/
def phClean (href : String) : String :=
  let full_url :=
    if pyStartsWith "http" href then href else "https://www.pistonheads.com" ++ href
  stripFromChar '?' full_url

/-- The per-page link scan of `cazoo_scraper._harvest_links` (lines
106-123): every anchor href containing `/cars-for-sale/` with at least
three slashes and a numeric id is cleaned, then appended if not already
collected and on the cazoo.co.uk domain; finally
`list(dict.fromkeys(page_links))` deduplicates again. -/
def cazoo_page_links (hrefs : List String) : List String :=
  pyDedup (hrefs.foldl
    (fun acc href =>
      if strContains "/cars-for-sale/" href &&
         decide (3 ≤ countChar '/' href) &&
         hasSubThenDigit "/cars-for-sale/".toList href.toList then
        let clean_url := cazooClean href
        if !(acc.contains clean_url) && strContains "cazoo.co.uk" clean_url then
          acc ++ [clean_url]
        else acc
      else acc)
    [])

/-- The per-page link scan of
`pistonheads_scraper.extract_listings_and_next_page` (lines 334-340): every
anchor href containing `/buy/listing/` but not `thumb` is cleaned with
`split('?')[0]` and appended if not already collected. -/
def ph_page_links (hrefs : List String) : List String :=
  hrefs.foldl
    (fun acc href =>
      if strContains "/buy/listing/" href && !(strContains "thumb" href) then
        let clean_url := phClean href
        if acc.contains clean_url then acc else acc ++ [clean_url]
      else acc)
    []

/-- Gumtree's URL cleanup on the primary (`search-result-anchor`) path
(gumtree_scraper.py lines 113-116): `href.split('?')[0]` when the href is
absolute, otherwise `f"https://www.gumtree.com{href}".split('?')[0]` —
only the query string is stripped; a fragment survives. -/
def gumtreeClean1 (href : String) : String :=
  if pyStartsWith "http" href then stripFromChar '?' href
  else stripFromChar '?' ("https://www.gumtree.com" ++ href)

/-- Gumtree's URL cleanup on the two fallback paths (lines 128-130 and
140-142): `full_url.split("?", 1)[0].split("#", 1)[0]` — the query string
and the fragment are both stripped. -/
def gumtreeClean23 (href : String) : String :=
  let full_url :=
    if pyStartsWith "http" href then href else "https://www.gumtree.com" ++ href
  stripFromChar '#' (stripFromChar '?' full_url)

/-- The tail of Gumtree's fallback pattern `/p/[^/]+/[^/]+/\d+` after the
`/p/` prefix: a non-empty slash-free segment, a slash, another non-empty
slash-free segment, a slash, then a digit.  `[^/]` cannot match `/`, so the
greedy runs need no backtracking. -/
def gumtreeSegTail (cs : List Char) : Bool :=
  let s1 := cs.takeWhile (fun c => c ≠ '/')
  let r1 := cs.dropWhile (fun c => c ≠ '/')
  if s1.isEmpty then false
  else
    match r1 with
    | '/' :: r2 =>
      let s2 := r2.takeWhile (fun c => c ≠ '/')
      let r3 := r2.dropWhile (fun c => c ≠ '/')
      if s2.isEmpty then false
      else
        match r3 with
        | '/' :: d :: _ => d.isDigit
        | _ => false
    | _ => false

/-- `re.search(r"/p/[^/]+/[^/]+/\d+", href)` of Gumtree's third method:
some occurrence of `/p/` is followed by the segment pattern. -/
def hasGumtreeIdPattern : List Char → Bool
  | [] => false
  | c :: cs =>
    ("/p/".toList.isPrefixOf (c :: cs) && gumtreeSegTail ((c :: cs).drop 3)) ||
      hasGumtreeIdPattern cs

/-- Method 1 of `gumtree_scraper._harvest_links` (lines 108-119): the hrefs
of the `a[data-q="search-result-anchor"]` links; each non-empty href
containing `/p/` is cleaned with `split('?')[0]` and appended if not
already collected. -/
def gumtree_method1 (anchors : List String) : List String :=
  anchors.foldl
    (fun acc href =>
      if !(href == "") && strContains "/p/" href then
        let clean_url := gumtreeClean1 href
        if acc.contains clean_url then acc else acc ++ [clean_url]
      else acc)
    []

/-- Method 2 (lines 122-132), tried only when method 1 collected nothing:
the first anchor href of each `article[data-q="search-result"]`, kept when
it contains `/p/`, cleaned with query and fragment stripped. -/
def gumtree_method2 (anchors : List String) : List String :=
  anchors.foldl
    (fun acc href =>
      if strContains "/p/" href then
        let clean_url := gumtreeClean23 href
        if acc.contains clean_url then acc else acc ++ [clean_url]
      else acc)
    []

/-- Method 3 (lines 134-145), tried only when methods 1 and 2 collected
nothing: every href containing `/p/` and matching `/p/[^/]+/[^/]+/\d+`,
cleaned with query and fragment stripped and kept when on the gumtree.com
domain. -/
def gumtree_method3 (anchors : List String) : List String :=
  anchors.foldl
    (fun acc href =>
      if strContains "/p/" href && hasGumtreeIdPattern href.toList then
        let clean_url := gumtreeClean23 href
        if !(acc.contains clean_url) && strContains "gumtree.com" clean_url then
          acc ++ [clean_url]
        else acc
      else acc)
    []

/-- The whole per-page link scan of `gumtree_scraper._harvest_links`
(lines 104-150): method 1 over the search-result-anchor hrefs, falling
back to method 2 over the article hrefs and then to method 3 over all
hrefs when the earlier methods found nothing, finally deduplicated with
`list(dict.fromkeys(page_links))`. -/
def gumtree_page_links (anchors1 anchors2 anchors3 : List String) : List String :=
  let m1 := gumtree_method1 anchors1
  pyDedup
    (if m1 = [] then
      (let m2 := gumtree_method2 anchors2
       if m2 = [] then gumtree_method3 anchors3 else m2)
    else m1)

-- ────────────────────────────────────────────────────────────
-- cazoo_scraper.py / gumtree_scraper.py: `_harvest_links` (lines 54-150
-- resp. 54-177) — the shared pagination loop
-- ────────────────────────────────────────────────────────────

/-- The `while page <= max_pages and consecutive_empty < 2` loop of
`_harvest_links`, identical in the Cazoo and Gumtree scrapers.  `fetch p`
is the page fetch for page `p` (`none` models a failed fetch,
`some hrefs` the anchors of the fetched page), `extract` the per-page link
scan (`cazoo_page_links` for Cazoo; for Gumtree, `gumtree_page_links`
applied to the page's anchor groups).  The fuel argument counts the pages
the budget still allows, so the loop guard `page ≤ max_pages` is fuel
exhaustion; a failed fetch and an empty page both bump
`consecutive_empty`, a productive page resets it and extends `all_links`.
Besides the accumulated links the embedding records the list of pages
actually fetched, to reason about which pages the harvester attempts. -/
def harvest_aux (fetch : Nat → Option (List String))
    (extract : List String → List String) :
    Nat → Nat → Nat → List String → List Nat → List String × List Nat
  | 0, _, _, acc, vis => (acc, vis)
  | fuel + 1, page, ce, acc, vis =>
    if 2 ≤ ce then (acc, vis)
    else
      match fetch page with
      | none => harvest_aux fetch extract fuel (page + 1) (ce + 1) acc (vis ++ [page])
      | some hrefs =>
        let page_links := pyDedup (extract hrefs)
        if page_links = [] then
          harvest_aux fetch extract fuel (page + 1) (ce + 1) acc (vis ++ [page])
        else
          harvest_aux fetch extract fuel (page + 1) 0 (acc ++ page_links) (vis ++ [page])

/-- `_harvest_links(search_url, max_pages)`: run the loop from page 1 with
no consecutive-empty strikes, then deduplicate the accumulated links with
`list(dict.fromkeys(all_links))`.  The second component is the list of
fetched pages (instrumentation, see `harvest_aux`). -/
def harvest_links (fetch : Nat → Option (List String))
    (extract : List String → List String) (max_pages : Nat) :
    List String × List Nat :=
  let r := harvest_aux fetch extract max_pages 1 0 [] []
  (pyDedup r.1, r.2)

theorem pyDedup_eq_nil_iff (xs : List String) : pyDedup xs = [] ↔ xs = [] := by
  cases xs with
  | nil => simp [pyDedup, pyDedupAux]
  | cons x rest => simp [pyDedup, pyDedupAux]

theorem harvest_aux_stop (f : Nat → Option (List String))
    (e : List String → List String) (fuel page ce : Nat) (acc : List String)
    (vis : List Nat) (hce : 2 ≤ ce) :
    harvest_aux f e fuel page ce acc vis = (acc, vis) := by
  cases fuel with
  | zero => rfl
  | succ n => simp [harvest_aux, hce]

theorem harvest_aux_all_empty (f : Nat → Option (List String))
    (e : List String → List String) (hemp : ∀ p h, f p = some h → e h = []) :
    ∀ (fuel page ce : Nat) (acc : List String) (vis : List Nat),
      (harvest_aux f e fuel page ce acc vis).1 = acc := by
  intro fuel
  induction fuel with
  | zero => intro page ce acc vis; rfl
  | succ n ih =>
    intro page ce acc vis
    by_cases hce : 2 ≤ ce
    · simp [harvest_aux, hce]
    · simp only [harvest_aux, if_neg hce]
      cases hf : f page with
      | none => exact ih (page + 1) (ce + 1) acc (vis ++ [page])
      | some hrefs =>
        have he : e hrefs = [] := hemp page hrefs hf
        simp only [he, pyDedup, pyDedupAux, if_pos rfl]
        exact ih (page + 1) (ce + 1) acc (vis ++ [page])

/-- C4: the harvester's early-stop rule.  (i) Once two consecutive pages
have yielded zero URLs the loop returns immediately, fetching no further
page.  (ii) In a harvest whose pages 1 and 2 yield URLs while pages 3 and 4
yield none (budget at least 5 pages), the result is exactly the
deduplicated URLs of pages 1 and 2 and the pages fetched are exactly
1, 2, 3, 4 — page 5 is never attempted.  (iii) A harvest all of whose pages
yield nothing returns an empty list, not an error. -/
theorem c4_early_stop :
    (∀ (f : Nat → Option (List String)) (e : List String → List String)
       (fuel page ce : Nat) (acc : List String) (vis : List Nat),
       2 ≤ ce → harvest_aux f e fuel page ce acc vis = (acc, vis)) ∧
    (∀ (f : Nat → Option (List String)) (e : List String → List String)
       (max_pages : Nat) (h1 h2 h3 h4 : List String),
       5 ≤ max_pages →
       f 1 = some h1 → e h1 ≠ [] → f 2 = some h2 → e h2 ≠ [] →
       f 3 = some h3 → e h3 = [] → f 4 = some h4 → e h4 = [] →
       harvest_links f e max_pages =
         (pyDedup (pyDedup (e h1) ++ pyDedup (e h2)), [1, 2, 3, 4])) ∧
    (∀ (f : Nat → Option (List String)) (e : List String → List String)
       (max_pages : Nat),
       (∀ p h, f p = some h → e h = []) → (harvest_links f e max_pages).1 = []) := by
  refine ⟨fun f e fuel page ce acc vis hce => harvest_aux_stop f e fuel page ce acc vis hce,
    ?_, ?_⟩
  · intro f e max_pages h1 h2 h3 h4 hmp hf1 he1 hf2 he2 hf3 he3 hf4 he4
    obtain ⟨mp, rfl⟩ : ∃ mp, max_pages = mp + 5 := ⟨max_pages - 5, by omega⟩
    have hd1 : pyDedup (e h1) ≠ [] := fun h => he1 ((pyDedup_eq_nil_iff (e h1)).1 h)
    have hd2 : pyDedup (e h2) ≠ [] := fun h => he2 ((pyDedup_eq_nil_iff (e h2)).1 h)
    have s1 : harvest_aux f e (mp + 5) 1 0 [] [] =
        harvest_aux f e (mp + 4) 2 0 (pyDedup (e h1)) [1] := by
      rw [show mp + 5 = (mp + 4) + 1 by omega]
      simp [harvest_aux, hf1, hd1]
    have s2 : harvest_aux f e (mp + 4) 2 0 (pyDedup (e h1)) [1] =
        harvest_aux f e (mp + 3) 3 0 (pyDedup (e h1) ++ pyDedup (e h2)) [1, 2] := by
      rw [show mp + 4 = (mp + 3) + 1 by omega]
      simp [harvest_aux, hf2, hd2]
    have s3 : harvest_aux f e (mp + 3) 3 0 (pyDedup (e h1) ++ pyDedup (e h2)) [1, 2] =
        harvest_aux f e (mp + 2) 4 1 (pyDedup (e h1) ++ pyDedup (e h2)) [1, 2, 3] := by
      rw [show mp + 3 = (mp + 2) + 1 by omega]
      simp [harvest_aux, hf3, he3, pyDedup, pyDedupAux]
    have s4 : harvest_aux f e (mp + 2) 4 1 (pyDedup (e h1) ++ pyDedup (e h2)) [1, 2, 3] =
        harvest_aux f e (mp + 1) 5 2 (pyDedup (e h1) ++ pyDedup (e h2)) [1, 2, 3, 4] := by
      rw [show mp + 2 = (mp + 1) + 1 by omega]
      simp [harvest_aux, hf4, he4, pyDedup, pyDedupAux]
    have s5 : harvest_aux f e (mp + 1) 5 2 (pyDedup (e h1) ++ pyDedup (e h2)) [1, 2, 3, 4] =
        (pyDedup (e h1) ++ pyDedup (e h2), [1, 2, 3, 4]) :=
      harvest_aux_stop f e (mp + 1) 5 2 _ _ (le_refl 2)
    show (pyDedup (harvest_aux f e (mp + 5) 1 0 [] []).1,
        (harvest_aux f e (mp + 5) 1 0 [] []).2) = _
    rw [s1, s2, s3, s4, s5]
  · intro f e max_pages hemp
    show pyDedup (harvest_aux f e max_pages 1 0 [] []).1 = []
    rw [harvest_aux_all_empty f e hemp max_pages 1 0 [] []]
    rfl

/-- Witness for C4: a concrete harvest whose page 1 yields `["a"]`, page 2
yields `["b"]` and every later page yields nothing returns `["a", "b"]`
after fetching exactly pages 1, 2, 3, 4. -/
theorem c4_early_stop_witness :
    harvest_links
        (fun p => if p = 1 then some ["a"] else if p = 2 then some ["b"] else some [])
        (fun l => l) 40 =
      (["a", "b"], [1, 2, 3, 4]) := by
  have h := c4_early_stop.2.1
    (fun p => if p = 1 then some ["a"] else if p = 2 then some ["b"] else some [])
    (fun l => l) 40 ["a"] ["b"] [] []
    (by omega) rfl (by decide) rfl (by decide) rfl rfl rfl rfl
  rw [h]
  decide

theorem not_mem_stripFromChar (c : Char) (s : String) :
    c ∉ (stripFromChar c s).toList := by
  intro hmem
  have hp := List.mem_takeWhile_imp (p := fun d => decide (d ≠ c)) hmem
  simp at hp

theorem toList_stripFromChar_sublist (c : Char) (s : String) :
    List.Sublist (stripFromChar c s).toList s.toList :=
  List.takeWhile_sublist _

/-- C5 counterexample: the PistonHeads page parser does not strip
fragments.  On a page whose anchors are a listing URL and the same URL with
a `#photos` fragment, the parser emits both — two entries, not the single
canonicalized entry the claim requires. -/
theorem c5_fragment_counterexample :
    ph_page_links
        ["https://www.pistonheads.com/buy/listing/123",
         "https://www.pistonheads.com/buy/listing/123#photos"] =
      ["https://www.pistonheads.com/buy/listing/123",
       "https://www.pistonheads.com/buy/listing/123#photos"] ∧
    ph_page_links
        ["https://www.pistonheads.com/buy/listing/123",
         "https://www.pistonheads.com/buy/listing/123#photos"] ≠
      ["https://www.pistonheads.com/buy/listing/123"] := by
  constructor
  · decide
  · decide

/-- C5 amended: the Cazoo harvester canonicalizes every discovered URL by
stripping both the query string and the fragment; the PistonHeads page
parser and the primary (search-result-anchor) path of the Gumtree
harvester strip only the query string, so a fragment survives their
canonicalization (Gumtree's two fallback paths strip both); all
deduplicate with order-preserving, first-occurrence-wins semantics, and
for a page returning `["a", "b", "b?ref=x"]`-shaped listing anchors the
output is exactly the two canonical URLs. -/
theorem c5_amended_canonicalization :
    (∀ s : String, '?' ∉ (cazooClean s).toList ∧ '#' ∉ (cazooClean s).toList) ∧
    (∀ s : String, '?' ∉ (phClean s).toList) ∧
    phClean "https://www.pistonheads.com/buy/listing/123#photos" =
      "https://www.pistonheads.com/buy/listing/123#photos" ∧
    (∀ s : String, '?' ∉ (gumtreeClean1 s).toList) ∧
    gumtreeClean1 "https://www.gumtree.com/p/cars/ford-fiesta/123#photos" =
      "https://www.gumtree.com/p/cars/ford-fiesta/123#photos" ∧
    (∀ s : String, '?' ∉ (gumtreeClean23 s).toList ∧ '#' ∉ (gumtreeClean23 s).toList) ∧
    (∀ xs : List String,
       (pyDedup xs).Nodup ∧ List.Sublist (pyDedup xs) xs ∧
       ∀ x, x ∈ pyDedup xs ↔ x ∈ xs) ∧
    cazoo_page_links
        ["https://www.cazoo.co.uk/cars-for-sale/111",
         "https://www.cazoo.co.uk/cars-for-sale/222",
         "https://www.cazoo.co.uk/cars-for-sale/222?ref=x"] =
      ["https://www.cazoo.co.uk/cars-for-sale/111",
       "https://www.cazoo.co.uk/cars-for-sale/222"] ∧
    ph_page_links
        ["/buy/listing/111", "/buy/listing/222", "/buy/listing/222?ref=x"] =
      ["https://www.pistonheads.com/buy/listing/111",
       "https://www.pistonheads.com/buy/listing/222"] ∧
    gumtree_page_links
        ["https://www.gumtree.com/p/cars/aa/111",
         "https://www.gumtree.com/p/cars/bb/222",
         "https://www.gumtree.com/p/cars/bb/222?ref=x"] [] [] =
      ["https://www.gumtree.com/p/cars/aa/111",
       "https://www.gumtree.com/p/cars/bb/222"] := by
  refine ⟨?_, ?_, by decide, ?_, by decide, ?_, ?_, by decide, by decide, by decide⟩
  · intro s
    constructor
    · intro hmem
      have hsub := toList_stripFromChar_sublist '#'
        (stripFromChar '?' (if pyStartsWith "http" s then s else "https://www.cazoo.co.uk" ++ s))
      exact not_mem_stripFromChar '?' _ (hsub.mem hmem)
    · exact not_mem_stripFromChar '#' _
  · intro s
    exact not_mem_stripFromChar '?' _
  · intro s
    unfold gumtreeClean1
    split
    · exact not_mem_stripFromChar '?' _
    · exact not_mem_stripFromChar '?' _
  · intro s
    constructor
    · intro hmem
      have hsub := toList_stripFromChar_sublist '#'
        (stripFromChar '?' (if pyStartsWith "http" s then s else "https://www.gumtree.com" ++ s))
      exact not_mem_stripFromChar '?' _ (hsub.mem hmem)
    · exact not_mem_stripFromChar '#' _
  · intro xs
    exact ⟨nodup_pyDedup xs, sublist_pyDedup xs, fun x => mem_pyDedup x xs⟩

-- ────────────────────────────────────────────────────────────
-- run_all.py: the per-source orchestrator block of `main`
-- (lines 122-161 for PistonHeads; identical for AA and Cazoo)
-- ────────────────────────────────────────────────────────────

/-- What the awaited scraper call produced: a list of flattened records
(possibly empty — `if ph_rows:` is then falsy), or an exception that
escaped `run_*` and is caught by the surrounding `except` block. -/
inductive ScrapeOutcome where
  | rows (flat : List Rec)
  | raised
deriving DecidableEq

/-- How the storage behaves during `save_to_leads` (which forwards to
`save_to_raw_source`): `ok` persists the batch; `storageError` stands for
an unrecoverable `mysql.connector.Error` (or an unavailable pool / failed
table check) — `save_to_raw_source` catches it, rolls back and returns
`None`, so nothing is persisted and, crucially, no exception reaches the
caller. -/
inductive SinkBehavior where
  | ok
  | storageError
deriving DecidableEq

/-- The progress update performed after the save call:
`last_page = end_page` where `start_page = last_page + 1` and
`end_page = start_page + pages_per_run - 1`, cumulative counters bumped,
`last_run` stamped. -/
def advance_progress (pages_per_run : Nat) (p : SourceProgress) (n now : Nat) :
    SourceProgress :=
  { last_page := p.last_page + 1 + pages_per_run - 1,
    total_pages_scraped := p.total_pages_scraped + pages_per_run,
    total_listings := p.total_listings + n,
    last_run := some now }

/-- The checkpoint effect of one per-source block of `run_all.main`: the
progress entry is advanced iff the scraper returned a non-empty row list
and no exception escaped; an exception caught by the `except` block leaves
it untouched. -/
def run_source_step (pages_per_run : Nat) (p : SourceProgress)
    (o : ScrapeOutcome) (now : Nat) : SourceProgress :=
  match o with
  | ScrapeOutcome.raised => p
  | ScrapeOutcome.rows flat =>
    if flat = [] then p else advance_progress pages_per_run p flat.length now

/-- One per-source block of `run_all.main` with the sink state made
explicit: on non-empty rows the block calls `save_to_leads` →
`save_to_raw_source` (whose storage errors are swallowed internally) and
then runs the progress update unconditionally — the update is not gated on
the save having succeeded. -/
def run_source_pipeline (pages_per_run : Nat) (source : String)
    (p : SourceProgress) (o : ScrapeOutcome) (sink : SinkBehavior)
    (st : SinkState) (now : Nat) : SourceProgress × SinkState :=
  match o with
  | ScrapeOutcome.raised => (p, st)
  | ScrapeOutcome.rows flat =>
    if flat = [] then (p, st)
    else
      (advance_progress pages_per_run p flat.length now,
       match sink with
       | SinkBehavior.ok => (save_to_raw_source st flat source now).1
       | SinkBehavior.storageError => st)

/-- C1 (code bug): with pages_per_run = 3, a fresh checkpoint, one valid
scraped record and a storage layer that fails unrecoverably during the
upsert, the per-source block still advances the checkpoint to
last_page = 3 and bumps the cumulative counters, while the sink state is
unchanged — nothing was persisted.  The claim (and spec §4.3/§7) requires
the checkpoint not to advance in exactly this situation, so the next run
would retry the same page range; the code instead skips pages 1-3
forever. -/
theorem c1_checkpoint_advances_despite_storage_error :
    run_source_pipeline 3 "PistonHeads" default_source_progress
        (ScrapeOutcome.rows [[("listing_url", "u1"), ("make", "BMW")]])
        SinkBehavior.storageError ⟨[], 0⟩ 7 =
      ({ last_page := 3, total_pages_scraped := 3, total_listings := 1,
         last_run := some 7 }, ⟨[], 0⟩) := by
  decide

/-- `N` consecutive per-source runs, each with its scraped row list and
timestamp, folding `run_source_step` over the checkpoint. -/
def iterate_runs (pages_per_run : Nat) :
    SourceProgress → List (List Rec × Nat) → SourceProgress
  | p, [] => p
  | p, (flat, now) :: rest =>
    iterate_runs pages_per_run
      (run_source_step pages_per_run p (ScrapeOutcome.rows flat) now) rest

theorem iterate_runs_last_page (runs : List (List Rec × Nat)) :
    ∀ p : SourceProgress, (∀ r ∈ runs, r.1 ≠ []) →
      (iterate_runs 3 p runs).last_page = p.last_page + 3 * runs.length := by
  induction runs with
  | nil => intro p _; simp [iterate_runs]
  | cons ru rest ih =>
    intro p hne
    obtain ⟨flat, now⟩ := ru
    have hflat : flat ≠ [] := hne (flat, now) (List.mem_cons_self _ _)
    simp only [iterate_runs, run_source_step, if_neg hflat]
    rw [ih _ (fun r hr => hne r (List.mem_cons_of_mem _ hr))]
    simp only [advance_progress, List.length_cons]
    omega

/-- C6: each run derives its range from the checkpoint
(start_page = last_page + 1, end_page = start_page + pages_per_run - 1) and
a successful run sets last_page = end_page; the cumulative counters never
decrease under any outcome; and after N successful runs with
pages_per_run = 3 from a fresh checkpoint, last_page = 3 * N. -/
theorem c6_checkpoint_monotonicity :
    (∀ (ppr : Nat) (p : SourceProgress) (flat : List Rec) (now : Nat),
       flat ≠ [] →
       run_source_step ppr p (ScrapeOutcome.rows flat) now =
         advance_progress ppr p flat.length now ∧
       (run_source_step ppr p (ScrapeOutcome.rows flat) now).last_page =
         p.last_page + 1 + ppr - 1) ∧
    (∀ (ppr : Nat) (p : SourceProgress) (o : ScrapeOutcome) (now : Nat),
       p.total_pages_scraped ≤ (run_source_step ppr p o now).total_pages_scraped ∧
       p.total_listings ≤ (run_source_step ppr p o now).total_listings) ∧
    (∀ runs : List (List Rec × Nat), (∀ r ∈ runs, r.1 ≠ []) →
       (iterate_runs 3 default_source_progress runs).last_page = 3 * runs.length) := by
  refine ⟨?_, ?_, ?_⟩
  · intro ppr p flat now hflat
    constructor
    · simp [run_source_step, hflat]
    · simp [run_source_step, hflat, advance_progress]
  · intro ppr p o now
    match o with
    | ScrapeOutcome.raised => exact ⟨le_refl _, le_refl _⟩
    | ScrapeOutcome.rows flat =>
      by_cases hflat : flat = []
      · simp [run_source_step, hflat]
      · simp only [run_source_step, if_neg hflat, advance_progress]
        exact ⟨Nat.le_add_right _ _, Nat.le_add_right _ _⟩
  · intro runs hne
    rw [iterate_runs_last_page runs default_source_progress hne]
    simp [default_source_progress]

/-- Witness for C6: two successful runs of one record each, from the fresh
checkpoint, leave last_page = 3 * 2. -/
theorem c6_checkpoint_monotonicity_witness :
    (iterate_runs 3 default_source_progress
        [([[("listing_url", "u")]], 0), ([[("listing_url", "u")]], 1)]).last_page =
      3 * 2 :=
  c6_checkpoint_monotonicity.2.2
    [([[("listing_url", "u")]], 0), ([[("listing_url", "u")]], 1)] (by decide)

end Scraper
